import Mathlib

/-!
Shallow embedding of the connectivity core of the `arduino-demo` repository:
the Configuration Parameter Registry (`src/include/utils/wifiConfig.h`) and
the Topic Dispatch & Connection Lifecycle Manager
(`src/include/utils/mqtt_manager.h`).

External collaborators (the MQTT transport `PubSubClient`, the JSON codec
`ArduinoJson`, the flash filesystem, WiFi/network info, and all diagnostic
printing) are modelled as injected parameters or explicit action events;
the control flow and state mutation of the core is translated statement by
statement from the C++ source.
-/

set_option autoImplicit false
set_option maxRecDepth 8000

namespace ArduinoDemo

/-- A string-keyed map, modelling both `std::map<String, String>` and a parsed
flat JSON object (`ArduinoJson` document holding string values).  The core
only ever observes such maps through exact-key lookup, insert-or-assign and
per-registry-entry iteration, for which an association list is an exact
behavioural model. -/
abbrev StrMap := List (String × String)

/-- Exact-key lookup (`m.find(key)` on `std::map`, `doc.containsKey` /
`doc[key]` on a parsed JSON document). -/
def mapFind : StrMap → String → Option String
  | [], _ => none
  | (k, v) :: m, key => if k = key then some v else mapFind m key

/-- Insert-or-assign (`m[key] = value` on `std::map`, `doc[key] = value` on a
JSON document). -/
def mapInsert : StrMap → String → String → StrMap
  | [], key, value => [(key, value)]
  | (k, v) :: m, key, value =>
    if k = key then (k, value) :: m else (k, v) :: mapInsert m key value

/-! ## Configuration Parameter Registry (`src/include/utils/wifiConfig.h`) -/

/-- `struct ConfigParam` (wifiConfig.h).  The `wfmParam` pointer feeds the
captive-portal UI collaborator only and carries no core state, so it is not
modelled. -/
structure ConfigParam where
  key : String
  label : String
  defaultValue : String
  maxLength : Int
  value : String
  deriving Repr, DecidableEq

/-- The two global containers `configParams` (ordered sequence) and
`configValues` (derived `key -> currentValue` map) of wifiConfig.h. -/
structure ConfigState where
  configParams : List ConfigParam
  configValues : StrMap
  deriving Repr, DecidableEq

/-- The freshly initialised global registry: both containers empty. -/
def emptyConfig : ConfigState := { configParams := [], configValues := [] }

/-- The duplicate check at the top of `registerParam`: the `for` loop over
`configParams` returning early when `param.key == key`. -/
def paramRegistered (ps : List ConfigParam) (key : String) : Bool :=
  ps.any (fun p => p.key = key)

/-- `registerParam(key, label, defaultValue, maxLength)` (wifiConfig.h):
returns unchanged if the key is already present, otherwise appends a new
`ConfigParam` with `value = defaultValue` and mirrors it into
`configValues`. -/
def registerParam (s : ConfigState) (key label defaultValue : String)
    (maxLength : Int) : ConfigState :=
  if paramRegistered s.configParams key then s
  else
    { configParams := s.configParams ++
        [{ key := key, label := label, defaultValue := defaultValue,
           maxLength := maxLength, value := defaultValue }],
      configValues := mapInsert s.configValues key defaultValue }

/-- `getConfigValue(key)` (wifiConfig.h): the map lookup, returning the empty
string on a miss. -/
def getConfigValue (s : ConfigState) (key : String) : String :=
  match mapFind s.configValues key with
  | some v => v
  | none => ""

/-- The `for` loop of `setConfigValue`: update the first parameter whose key
matches and stop; `none` when no parameter matches (the key is unknown). -/
def setParamValue : List ConfigParam → String → String → Option (List ConfigParam)
  | [], _, _ => none
  | p :: ps, key, value =>
    if p.key = key then some ({ p with value := value } :: ps)
    else (setParamValue ps key value).map (fun ps' => p :: ps')

/-- `setConfigValue(key, value)` (wifiConfig.h): on a registered key, updates
`param.value` in the sequence and `configValues[key]` in the map (then calls
`saveConfig()`, a store write with no effect on registry state); on an
unknown key, only logs.  Note the source performs no `maxLength` check. -/
def setConfigValue (s : ConfigState) (key value : String) : ConfigState :=
  match setParamValue s.configParams key value with
  | some ps => { configParams := ps, configValues := mapInsert s.configValues key value }
  | none => s

/-- Outcome of the injected key/value document store as observed by
`readConfig`: the config file may be absent, fail to open, fail to parse, or
yield a flat key/value document. -/
inductive StoreRead where
  | missing
  | openFail
  | parseFail
  | ok (doc : StrMap)
  deriving Repr, DecidableEq

/-- The read loop of `readConfig`: for every registered parameter whose key
the document contains, overwrite `param.value` and `configValues[key]`;
parameters absent from the document are left untouched. -/
def loadParams : List ConfigParam → StrMap → StrMap → List ConfigParam × StrMap
  | [], _, values => ([], values)
  | p :: ps, doc, values =>
    match mapFind doc p.key with
    | some v =>
      ({ p with value := v } :: (loadParams ps doc (mapInsert values p.key v)).1,
       (loadParams ps doc (mapInsert values p.key v)).2)
    | none =>
      (p :: (loadParams ps doc values).1, (loadParams ps doc values).2)

/-- `readConfig()` (wifiConfig.h): returns `false` with the registry
untouched when the file is missing, unopenable or unparsable; otherwise
applies the document to every registered parameter and returns `true`. -/
def readConfig (s : ConfigState) (store : StoreRead) : ConfigState × Bool :=
  match store with
  | .missing => (s, false)
  | .openFail => (s, false)
  | .parseFail => (s, false)
  | .ok doc =>
    let r := loadParams s.configParams doc s.configValues
    ({ configParams := r.1, configValues := r.2 }, true)

/-- First registered parameter with the given key (registration order). -/
def findParam (ps : List ConfigParam) (key : String) : Option ConfigParam :=
  ps.find? (fun p => p.key = key)

/-- The documented coherence between the ordered sequence `configParams` and
the derived map `configValues`: looking a key up in the map agrees with the
first matching parameter of the sequence.  Every mutation path of
wifiConfig.h updates the two containers together, so this holds in every
reachable state. -/
def inSync (s : ConfigState) : Prop :=
  ∀ k, mapFind s.configValues k = (findParam s.configParams k).map (fun p => p.value)

/-! ## Topic Dispatcher & Connection Lifecycle (`src/include/utils/mqtt_manager.h`) -/

/-- `struct MQTTTopic` (mqtt_manager.h).  The two raw function pointers
`onCommand` / `onMessage` are modelled by optional opaque handler
identifiers; invoking a handler is recorded as a `DispatchEvent` naming the
identifier and the arguments passed. -/
structure MQTTTopic where
  name : String
  onCommand : Option Nat
  onMessage : Option Nat
  deriving Repr, DecidableEq

/-- `struct DeviceStatus` (mqtt_manager.h), the fields the modelled paths
touch. -/
structure DeviceStatus where
  deviceId : String
  chipType : String
  isConnected : Bool
  lastUpdateTime : Nat
  uptime : Nat
  signalStrength : Int
  ipAddress : String
  deriving Repr, DecidableEq

/-- The mutable state of `class MQTTManager` (the `PubSubClient*` transport
is modelled separately as `PubSubClientState`; `debugEnabled` only guards
serial prints and is omitted). -/
structure MQTTManager where
  topics : List MQTTTopic
  deviceStatus : DeviceStatus
  baseTopicPrefix : String
  deviceId : String
  lastStatusPublish : Nat
  statusPublishInterval : Nat
  autoStatusReport : Bool
  deriving Repr, DecidableEq

/-- The `MQTTManager` constructor (mqtt_manager.h): records device id and
topic root, defaults the publish interval to 30000 ms, and initialises
`deviceStatus` (chip type comes from the platform macro `CHIP_TYPE`,
injected here as an argument). -/
def mqttInit (devId chipType base : String) : MQTTManager :=
  { topics := []
    deviceStatus :=
      { deviceId := devId, chipType := chipType, isConnected := false,
        lastUpdateTime := 0, uptime := 0, signalStrength := 0, ipAddress := "" }
    baseTopicPrefix := base
    deviceId := devId
    lastStatusPublish := 0
    statusPublishInterval := 30000
    autoStatusReport := true }

/-- `buildTopic(subTopic)` (mqtt_manager.h): the fully-qualified topic
`baseTopicPrefix + "/" + deviceStatus.deviceId + "/" + subTopic`. -/
def buildTopic (m : MQTTManager) (subTopic : String) : String :=
  m.baseTopicPrefix ++ "/" ++ m.deviceStatus.deviceId ++ "/" ++ subTopic

/-- `registerTopic(topicName, cmdCallback, msgCallback)` (mqtt_manager.h):
builds a new `MQTTTopic` and appends it with `push_back` — the source
performs no duplicate-name check. -/
def registerTopic (m : MQTTManager) (topicName : String)
    (cmdCallback msgCallback : Option Nat) : MQTTManager :=
  { m with topics := m.topics ++
      [{ name := topicName, onCommand := cmdCallback, onMessage := msgCallback }] }

/-- `unregisterTopic(topicName)` (mqtt_manager.h): erases the first binding
with a matching name, if any. -/
def unregisterTopic (m : MQTTManager) (topicName : String) : MQTTManager :=
  { m with topics :=
      match m.topics.findIdx? (fun t => t.name = topicName) with
      | some i => m.topics.eraseIdx i
      | none => m.topics }

/-- A parsed inbound JSON payload as the dispatcher observes it through the
ArduinoJson collaborator: `containsKey` and string extraction over a flat
field map. -/
structure JsonDoc where
  fields : StrMap
  deriving Repr, DecidableEq

/-- `doc.containsKey(k)`. -/
def JsonDoc.containsKey (d : JsonDoc) (k : String) : Bool :=
  (mapFind d.fields k).isSome

/-- `doc[k].as<String>()` (used only under a `containsKey` guard). -/
def JsonDoc.getString (d : JsonDoc) (k : String) : String :=
  (mapFind d.fields k).getD ""

/-- One observable callback invocation made by the dispatcher. -/
inductive DispatchEvent where
  | commandInvoke (handler : Nat) (command : String) (payload : JsonDoc)
  | messageInvoke (handler : Nat) (topic : String) (message : List UInt8)
  deriving Repr, DecidableEq

/-- The `snprintf(message, sizeof(message), "%.*s", (int)length, payload)`
step of `onMqttMessage`: the payload is copied into a `char message[256]`
buffer, stopping at the first NUL byte and keeping at most 255 bytes
(`snprintf` reserves one byte of the 256 for the terminator). -/
def truncMessage (payload : List UInt8) : List UInt8 :=
  (payload.takeWhile (fun b => b != 0)).take 255

/-- The body of the topic-matching loop of `onMqttMessage`, for the binding
whose fully-qualified name equals the incoming topic: if the parsed payload
has a `command` field and `onCommand` is non-null, invoke only the command
callback with `(commandValue, doc)`; otherwise invoke `onMessage`, when
non-null, with `(topic, message)`; otherwise nothing. -/
def handleBinding (doc : JsonDoc) (topic : String) (message : List UInt8)
    (t : MQTTTopic) : List DispatchEvent :=
  if doc.containsKey "command" && t.onCommand.isSome then
    [.commandInvoke (t.onCommand.getD 0) (doc.getString "command") doc]
  else
    match t.onMessage with
    | some h => [.messageInvoke h topic message]
    | none => []

/-- The `for (auto& t : topics)` loop of `onMqttMessage`: scan the bindings
in registration order; at the first one whose `buildTopic(t.name)` equals
the incoming topic, run `handleBinding` and `return`. -/
def dispatchTopics (m : MQTTManager) (topic : String) (doc : JsonDoc)
    (message : List UInt8) : List MQTTTopic → List DispatchEvent
  | [] => []
  | t :: ts =>
    if topic = buildTopic m t.name then handleBinding doc topic message t
    else dispatchTopics m topic doc message ts

/-- `onMqttMessage(topic, payload, length)` (mqtt_manager.h): truncate the
payload into the 256-byte buffer, parse it with the injected JSON codec
(`deserializeJson`); on parse failure return without invoking anything;
otherwise dispatch to the first matching binding.  The returned list is the
complete sequence of callback invocations the call performs. -/
def onMqttMessage (m : MQTTManager) (codec : List UInt8 → Option JsonDoc)
    (topic : String) (payload : List UInt8) : List DispatchEvent :=
  match codec (truncMessage payload) with
  | none => []
  | some doc => dispatchTopics m topic doc (truncMessage payload) m.topics

/-- The transport-level state of the `PubSubClient` collaborator the core
observes: whether `mqttClient->connected()` reports a live session. -/
structure PubSubClientState where
  connected : Bool
  deriving Repr, DecidableEq

/-- One call the core makes into the transport collaborator, in order. -/
inductive MqttAction where
  | connectAttempt (clientId : String) (auth : Option (String × String))
  | subscribe (topic : String)
  | publishRaw (topic : String) (payload : String)
  | clientDisconnect
  deriving Repr, DecidableEq

/-- The JSON documents the lifecycle paths build before serialising; only
the online-status document is reachable from the modelled paths. -/
inductive OutDoc where
  | onlineDoc (deviceId : String) (timestamp : Nat) (ipAddress : String)
  deriving Repr, DecidableEq

/-- The collaborators and ambient inputs `connect()` reads: the global
configuration registry, the transport handshake outcome, `millis()`,
`getLocalIP()`, and the `serializeJson` encoding of an outbound document. -/
structure ConnectEnv where
  cfg : ConfigState
  connectResult : Bool
  now : Nat
  localIP : String
  ser : OutDoc → String

/-- `subscribeToAllTopics()` (mqtt_manager.h): one `subscribe` call per
registered binding, in registration order, on its fully-qualified name (the
boolean each `subscribe` returns only selects a debug print). -/
def subscribeToAllTopics (m : MQTTManager) : List MqttAction :=
  m.topics.map (fun t => MqttAction.subscribe (buildTopic m t.name))

/-- `publishOnlineStatus()` (mqtt_manager.h): builds the online document and
hands `baseTopicPrefix + "/" + deviceId + "/online"` to `publishJson`, which
serialises it and calls `publish(topic, message)`; `publish` checks
`isConnected()` and then publishes to `buildTopic(topic)` (so the already
fully-qualified name is prefixed a second time, exactly as the source
composes it). -/
def publishOnlineStatus (m : MQTTManager) (cl : PubSubClientState)
    (env : ConnectEnv) : List MqttAction :=
  let doc := OutDoc.onlineDoc m.deviceStatus.deviceId env.now env.localIP
  let fullTopic := m.baseTopicPrefix ++ "/" ++ m.deviceStatus.deviceId ++ "/online"
  if cl.connected then [MqttAction.publishRaw (buildTopic m fullTopic) (env.ser doc)]
  else []

/-- The credential selection at the top of `connect()`: read `mqtt_user` /
`mqtt_pass` from the registry and authenticate with them when both are
non-empty, anonymously otherwise. -/
def connectAuth (env : ConnectEnv) : Option (String × String) :=
  let username := getConfigValue env.cfg "mqtt_user"
  let password := getConfigValue env.cfg "mqtt_pass"
  if username.length > 0 && password.length > 0 then some (username, password) else none

/-- `connect()` (mqtt_manager.h): reads `mqtt_user` / `mqtt_pass` from the
registry (`mqtt_server` / `mqtt_port` are also read but feed only the debug
print), attempts the transport handshake with the device id as client
identifier — with credentials when both are non-empty, anonymously
otherwise.  On success: marks `deviceStatus.isConnected`, records
`lastUpdateTime = millis()`, subscribes all registered topics, publishes the
online status, returns `true`.  On failure: clears
`deviceStatus.isConnected` and returns `false`.  Result:
`(manager, transport, transport calls in order, return value)`. -/
def connect (m : MQTTManager) (env : ConnectEnv) :
    MQTTManager × PubSubClientState × List MqttAction × Bool :=
  let attempt := MqttAction.connectAttempt m.deviceId (connectAuth env)
  let cl1 : PubSubClientState := { connected := env.connectResult }
  if env.connectResult then
    let m1 := { m with deviceStatus :=
      { m.deviceStatus with isConnected := true, lastUpdateTime := env.now } }
    (m1, cl1, attempt :: (subscribeToAllTopics m1 ++ publishOnlineStatus m1 cl1 env), true)
  else
    ({ m with deviceStatus := { m.deviceStatus with isConnected := false } },
     cl1, [attempt], false)

/-- The literal payload `publishOfflineStatus` hands to the transport. -/
def offlinePayload : String := "\x7b\"status\":\"offline\"\x7d"

/-- The topic `publishOfflineStatus` publishes on (built inline in the
source, without going through `publish`/`buildTopic`). -/
def offlineTopic (m : MQTTManager) : String :=
  m.baseTopicPrefix ++ "/" ++ m.deviceStatus.deviceId ++ "/offline"

/-- `disconnect()` (mqtt_manager.h): only when the transport reports a live
session, publish the offline status directly through the client, call
`mqttClient->disconnect()`, and clear `deviceStatus.isConnected`; otherwise
do nothing. -/
def disconnect (m : MQTTManager) (cl : PubSubClientState) :
    MQTTManager × PubSubClientState × List MqttAction :=
  if cl.connected then
    ({ m with deviceStatus := { m.deviceStatus with isConnected := false } },
     { connected := false },
     [MqttAction.publishRaw (offlineTopic m) offlinePayload, MqttAction.clientDisconnect])
  else
    (m, cl, [])

/-! ## Lemmas about the map model -/

theorem mapFind_mapInsert_self (m : StrMap) (k v : String) :
    mapFind (mapInsert m k v) k = some v := by
  induction m with
  | nil => simp [mapInsert, mapFind]
  | cons kv m ih =>
    obtain ⟨k', v'⟩ := kv
    by_cases h : k' = k
    · simp [mapInsert, mapFind, h]
    · simp [mapInsert, mapFind, h, ih]

theorem mapFind_mapInsert_ne (m : StrMap) (k k' v : String) (h : k' ≠ k) :
    mapFind (mapInsert m k' v) k = mapFind m k := by
  induction m with
  | nil => simp [mapInsert, mapFind, h]
  | cons kv m ih =>
    obtain ⟨k1, v1⟩ := kv
    by_cases h1 : k1 = k'
    · subst h1
      simp [mapInsert, mapFind, h]
    · by_cases h2 : k1 = k
      · simp [mapInsert, mapFind, h1, h2, Ne.symm h]
      · simp [mapInsert, mapFind, h1, h2, ih]

/-! ## C1: topic registration and duplicate names -/

/-- C1, counterexample.  The claim says registering an already-present topic
name is a no-op error leaving exactly one binding; the source `registerTopic`
performs no duplicate check, so registering `"cmd"` twice leaves two
bindings named `"cmd"`, not one. -/
theorem registerTopic_duplicate_not_rejected :
    ((registerTopic (registerTopic (mqttInit "dev1" "ESP32" "home") "cmd" none none)
        "cmd" none none).topics.filter (fun t => t.name = "cmd")).length = 2
    ∧ ¬ ((registerTopic (registerTopic (mqttInit "dev1" "ESP32" "home") "cmd" none none)
        "cmd" none none).topics.filter (fun t => t.name = "cmd")).length = 1 := by
  decide

/-- C1, amended: `registerTopic` appends a binding unconditionally — it
never rejects a duplicate name, so every call grows the binding list by one
and registering a name already present adds a second binding with that name
rather than leaving exactly one. -/
theorem registerTopic_appends_unconditionally (m : MQTTManager) (name : String)
    (cmd msg : Option Nat) :
    (registerTopic m name cmd msg).topics
      = m.topics ++ [{ name := name, onCommand := cmd, onMessage := msg }]
    ∧ ((registerTopic m name cmd msg).topics.filter (fun t => t.name = name)).length
      = (m.topics.filter (fun t => t.name = name)).length + 1 := by
  refine ⟨rfl, ?_⟩
  simp [registerTopic]

/-! ## C2: setConfigValue / getConfigValue -/

/-- C2, counterexample.  The claim says a `set` whose value exceeds the
parameter's `maxLength` fails leaving `currentValue` unchanged; the source
`setConfigValue` never consults `maxLength`, so with a parameter of
`maxLength = 2` setting the length-3 value `"abc"` succeeds and `get`
returns `"abc"`, not the previous value `"dv"`. -/
theorem setConfigValue_ignores_maxLength_cex :
    (2 : Int) < ("abc" : String).length
    ∧ getConfigValue
        (setConfigValue (registerParam emptyConfig "k" "lab" "dv" 2) "k" "abc") "k" = "abc"
    ∧ ¬ getConfigValue
        (setConfigValue (registerParam emptyConfig "k" "lab" "dv" 2) "k" "abc") "k"
        = getConfigValue (registerParam emptyConfig "k" "lab" "dv" 2) "k" := by
  decide

theorem setParamValue_none_iff (ps : List ConfigParam) (key value : String) :
    setParamValue ps key value = none ↔ paramRegistered ps key = false := by
  induction ps with
  | nil => simp [setParamValue, paramRegistered]
  | cons p ps ih =>
    by_cases h : p.key = key
    · simp [setParamValue, paramRegistered, h]
    · have hh : paramRegistered (p :: ps) key = paramRegistered ps key := by
        simp [paramRegistered, h]
      rw [hh, ← ih]
      simp [setParamValue, h, Option.map_eq_none]

theorem setParamValue_find (ps : List ConfigParam) (key value : String)
    (ps' : List ConfigParam) (h : setParamValue ps key value = some ps') :
    ∃ p, findParam ps key = some p
      ∧ findParam ps' key = some { p with value := value } := by
  induction ps generalizing ps' with
  | nil => simp [setParamValue] at h
  | cons p ps ih =>
    by_cases hk : p.key = key
    · refine ⟨p, ?_, ?_⟩
      · simp [findParam, List.find?_cons, hk]
      · simp only [setParamValue, if_pos hk, Option.some.injEq] at h
        subst h
        simp [findParam, List.find?_cons, hk]
    · simp only [setParamValue, if_neg hk] at h
      obtain ⟨qs, hqs, rfl⟩ := Option.map_eq_some.mp h
      obtain ⟨q, hq1, hq2⟩ := ih qs hqs
      exact ⟨q, by simp [findParam, List.find?_cons, hk] at hq1 ⊢; exact hq1,
        by simp [findParam, List.find?_cons, hk] at hq2 ⊢; exact hq2⟩

/-- C2, amended: for a registered key, `setConfigValue(key, v)` always
succeeds — the source performs no `maxLength` check — updating
`currentValue` in both the ordered sequence and the mapping, so a following
`getConfigValue(key)` returns `v` for every `v`; `set` on an unknown key
leaves all state unchanged. -/
theorem setConfigValue_spec (s : ConfigState) (key value : String) :
    (paramRegistered s.configParams key = true →
      getConfigValue (setConfigValue s key value) key = value
      ∧ ∃ p, findParam s.configParams key = some p
          ∧ findParam (setConfigValue s key value).configParams key
            = some { p with value := value })
    ∧ (paramRegistered s.configParams key = false →
      setConfigValue s key value = s) := by
  constructor
  · intro hreg
    obtain ⟨ps', hps'⟩ : ∃ ps', setParamValue s.configParams key value = some ps' := by
      cases hsp : setParamValue s.configParams key value with
      | none => rw [(setParamValue_none_iff _ _ _).mp hsp] at hreg; cases hreg
      | some ps' => exact ⟨ps', rfl⟩
    obtain ⟨p, hp1, hp2⟩ := setParamValue_find _ _ _ _ hps'
    refine ⟨?_, p, hp1, ?_⟩
    · simp [setConfigValue, hps', getConfigValue, mapFind_mapInsert_self]
    · simp [setConfigValue, hps', hp2]
  · intro hreg
    have : setParamValue s.configParams key value = none :=
      (setParamValue_none_iff _ _ _).mpr hreg
    simp [setConfigValue, this]

/-- C2, witness: a registered key accepts an over-long value and an unknown
key leaves the registry untouched, at concrete inputs. -/
theorem setConfigValue_spec_witness :
    getConfigValue
      (setConfigValue (registerParam emptyConfig "k" "lab" "dv" 2) "k" "abcd") "k" = "abcd"
    ∧ setConfigValue (registerParam emptyConfig "k" "lab" "dv" 2) "zz" "q"
      = registerParam emptyConfig "k" "lab" "dv" 2 :=
  ⟨((setConfigValue_spec (registerParam emptyConfig "k" "lab" "dv" 2) "k" "abcd").1
      (by decide)).1,
   (setConfigValue_spec (registerParam emptyConfig "k" "lab" "dv" 2) "zz" "q").2 (by decide)⟩

/-! ## C5: parse failure drops the message -/

/-- C5: when the payload (after buffer truncation) fails JSON parsing, the
dispatcher returns without invoking any command or message handler — the
invocation list is empty, so the failure also reaches no error callback. -/
theorem onMqttMessage_parse_failure_drops (m : MQTTManager)
    (codec : List UInt8 → Option JsonDoc) (topic : String) (payload : List UInt8)
    (h : codec (truncMessage payload) = none) :
    onMqttMessage m codec topic payload = [] := by
  simp [onMqttMessage, h]

/-- C5, witness: a codec rejecting the payload yields no invocation on a
concrete manager and message. -/
theorem onMqttMessage_parse_failure_drops_witness :
    onMqttMessage (registerTopic (mqttInit "dev1" "ESP32" "home") "cmd" (some 1) (some 2))
      (fun _ => none) "home/dev1/cmd" [123, 34] = [] :=
  onMqttMessage_parse_failure_drops _ _ _ _ rfl

/-! ## C8: getConfigValue on unknown and registered keys -/

/-- C8: with the sequence and the derived map in sync (as every mutation
path of the registry keeps them), `getConfigValue` returns the empty string
for a key absent from the registry and the parameter's `currentValue` for a
registered key. -/
theorem getConfigValue_spec (s : ConfigState) (key : String) (h : inSync s) :
    (findParam s.configParams key = none → getConfigValue s key = "")
    ∧ (∀ p, findParam s.configParams key = some p → getConfigValue s key = p.value) := by
  constructor
  · intro hn
    simp [getConfigValue, h key, hn]
  · intro p hp
    simp [getConfigValue, h key, hp]

/-- C8, witness: on a concrete one-parameter registry, `get` returns the
current value for the registered key and `""` for an unknown key. -/
theorem getConfigValue_spec_witness :
    getConfigValue (registerParam emptyConfig "k" "lab" "dv" 64) "k" = "dv"
    ∧ getConfigValue (registerParam emptyConfig "k" "lab" "dv" 64) "nope" = "" := by
  have hs : inSync (registerParam emptyConfig "k" "lab" "dv" 64) := by
    intro k
    by_cases hk : "k" = k <;>
      simp [registerParam, emptyConfig, paramRegistered, mapInsert, mapFind,
        findParam, List.find?, hk]
  constructor
  · exact (getConfigValue_spec _ "k" hs).2
      { key := "k", label := "lab", defaultValue := "dv", maxLength := 64, value := "dv" }
      (by decide)
  · exact (getConfigValue_spec _ "nope" hs).1 (by decide)

/-! ## Lemmas about the dispatch loop -/

theorem dispatchTopics_eq_find (m : MQTTManager) (topic : String) (doc : JsonDoc)
    (msg : List UInt8) (l : List MQTTTopic) :
    dispatchTopics m topic doc msg l =
      match l.find? (fun t => topic = buildTopic m t.name) with
      | some t => handleBinding doc topic msg t
      | none => [] := by
  induction l with
  | nil => rfl
  | cons t ts ih =>
    by_cases h : topic = buildTopic m t.name
    · simp [dispatchTopics, List.find?_cons, h]
    · simp [dispatchTopics, List.find?_cons, h, ih]

theorem handleBinding_length_le (doc : JsonDoc) (topic : String)
    (msg : List UInt8) (t : MQTTTopic) :
    (handleBinding doc topic msg t).length ≤ 1 := by
  unfold handleBinding
  split
  · simp
  · split <;> simp

theorem dispatchTopics_messageInvoke_mem (m : MQTTManager) (topic : String)
    (doc : JsonDoc) (msg : List UInt8) (l : List MQTTTopic) (h : Nat) (t : String)
    (mbytes : List UInt8)
    (hmem : DispatchEvent.messageInvoke h t mbytes ∈ dispatchTopics m topic doc msg l) :
    mbytes = msg := by
  induction l with
  | nil => simp [dispatchTopics] at hmem
  | cons b l ih =>
    by_cases hb : topic = buildTopic m b.name
    · simp only [dispatchTopics, if_pos hb] at hmem
      unfold handleBinding at hmem
      split at hmem
      · simp at hmem
      · split at hmem
        · simp only [List.mem_singleton, DispatchEvent.messageInvoke.injEq] at hmem
          exact hmem.2.2
        · simp at hmem
    · simp only [dispatchTopics, if_neg hb] at hmem
      exact ih hmem

/-! ## C3: command handler priority -/

/-- C3: for an inbound message whose (buffered) payload parses to `doc` and
whose topic's first matching binding is `t`: when `doc` has a `command`
field and `t` has a command handler, exactly the command handler is invoked
with the command value and the parsed payload — the message handler is
not; otherwise the message handler is invoked when present; otherwise no
handler runs. -/
theorem onMqttMessage_command_priority (m : MQTTManager)
    (codec : List UInt8 → Option JsonDoc) (topic : String) (payload : List UInt8)
    (doc : JsonDoc) (t : MQTTTopic)
    (hdoc : codec (truncMessage payload) = some doc)
    (ht : m.topics.find? (fun b => topic = buildTopic m b.name) = some t) :
    onMqttMessage m codec topic payload =
      if doc.containsKey "command" && t.onCommand.isSome then
        [DispatchEvent.commandInvoke (t.onCommand.getD 0) (doc.getString "command") doc]
      else
        match t.onMessage with
        | some h => [DispatchEvent.messageInvoke h topic (truncMessage payload)]
        | none => [] := by
  unfold onMqttMessage
  rw [hdoc]
  show dispatchTopics m topic doc (truncMessage payload) m.topics = _
  rw [dispatchTopics_eq_find, ht]
  rfl

/-- C3, witness: on a binding with both handlers registered, a payload
carrying `"command": "reboot"` invokes only the command handler, with the
command value and the parsed document. -/
theorem onMqttMessage_command_priority_witness :
    onMqttMessage (registerTopic (mqttInit "dev1" "ESP32" "home") "cmd" (some 1) (some 2))
      (fun _ => some { fields := [("command", "reboot")] }) "home/dev1/cmd" []
      = [DispatchEvent.commandInvoke 1 "reboot" { fields := [("command", "reboot")] }] := by
  have h := onMqttMessage_command_priority
    (registerTopic (mqttInit "dev1" "ESP32" "home") "cmd" (some 1) (some 2))
    (fun _ => some { fields := [("command", "reboot")] }) "home/dev1/cmd" []
    { fields := [("command", "reboot")] }
    { name := "cmd", onCommand := some 1, onMessage := some 2 }
    rfl (by decide)
  exact h.trans (by decide)

/-! ## C10: only the first matching binding is dispatched -/

/-- C10: a single inbound message invokes at most one handler, and dispatch
is exactly: find the first binding (in registration order) whose
fully-qualified name equals the incoming topic and run only that binding's
handler selection — bindings after the first match, including later
duplicates of the same name, are never consulted. -/
theorem onMqttMessage_first_match_only (m : MQTTManager)
    (codec : List UInt8 → Option JsonDoc) (topic : String) (payload : List UInt8) :
    (onMqttMessage m codec topic payload).length ≤ 1
    ∧ onMqttMessage m codec topic payload =
        (match codec (truncMessage payload) with
         | none => []
         | some doc =>
           match m.topics.find? (fun t => topic = buildTopic m t.name) with
           | some t => handleBinding doc topic (truncMessage payload) t
           | none => []) := by
  constructor
  · unfold onMqttMessage
    cases hc : codec (truncMessage payload) with
    | none => simp
    | some doc =>
      show (dispatchTopics m topic doc (truncMessage payload) m.topics).length ≤ 1
      rw [dispatchTopics_eq_find]
      cases m.topics.find? (fun t => topic = buildTopic m t.name) with
      | some t => exact handleBinding_length_le _ _ _ _
      | none => simp
  · unfold onMqttMessage
    cases hc : codec (truncMessage payload) with
    | none => rfl
    | some doc =>
      show dispatchTopics m topic doc (truncMessage payload) m.topics = _
      exact dispatchTopics_eq_find m topic doc (truncMessage payload) m.topics

/-! ## C9: payload buffering and truncation -/

theorem takeWhile_take_comm {α : Type} (p : α → Bool) (l : List α) (n : Nat) :
    (l.take n).takeWhile p = (l.takeWhile p).take n := by
  induction l generalizing n with
  | nil => simp
  | cons a l ih =>
    cases n with
    | zero => simp
    | succ n =>
      by_cases h : p a
      · simp [List.take_succ_cons, List.takeWhile_cons, h, ih]
      · simp [List.take_succ_cons, List.takeWhile_cons, h]

theorem takeWhile_eq_self_of_all {α : Type} (p : α → Bool) (l : List α)
    (h : ∀ b ∈ l, p b = true) :
    l.takeWhile p = l := by
  induction l with
  | nil => rfl
  | cons a l ih =>
    simp [List.takeWhile_cons, h a (by simp), ih (fun b hb => h b (by simp [hb]))]

theorem truncMessage_take_255 (payload : List UInt8) :
    truncMessage (payload.take 255) = truncMessage payload := by
  simp [truncMessage, takeWhile_take_comm, List.take_take]

/-- C9, counterexample.  The claim says payloads of length 255 or more are
truncated before parsing and a message handler never receives the raw
payload.  `snprintf` into the 256-byte buffer keeps up to 255 bytes, so a
payload of length exactly 255 is copied whole: the buffered message equals
the raw payload and the message handler receives the raw payload bytes. -/
theorem truncation_boundary_cex :
    truncMessage (List.replicate 255 97) = List.replicate 255 (97 : UInt8)
    ∧ (List.replicate 255 (97 : UInt8)).length = 255
    ∧ onMqttMessage (registerTopic (mqttInit "d" "ESP32" "h") "t" none (some 5))
        (fun _ => some { fields := [] }) "h/d/t" (List.replicate 255 97)
        = [DispatchEvent.messageInvoke 5 "h/d/t" (List.replicate 255 97)] := by
  decide

/-- C9, amended: the dispatcher processes at most the first 255 bytes of
the payload (also stopping at a NUL byte, per `snprintf` string semantics):
dispatch depends only on `payload.take 255`, the buffered message holds at
most 255 bytes, every message-handler invocation receives the buffered
message, and a NUL-free payload strictly longer than 255 bytes is truncated
to its first 255 bytes (in particular the handler no longer sees the raw
payload). -/
theorem onMqttMessage_truncation_spec (m : MQTTManager)
    (codec : List UInt8 → Option JsonDoc) (topic : String) (payload : List UInt8) :
    onMqttMessage m codec topic payload = onMqttMessage m codec topic (payload.take 255)
    ∧ (truncMessage payload).length ≤ 255
    ∧ (∀ h t msg, DispatchEvent.messageInvoke h t msg ∈ onMqttMessage m codec topic payload →
        msg = truncMessage payload)
    ∧ (255 < payload.length → (∀ b ∈ payload, b ≠ 0) →
        truncMessage payload = payload.take 255 ∧ truncMessage payload ≠ payload) := by
  refine ⟨?_, ?_, ?_, ?_⟩
  · unfold onMqttMessage
    rw [truncMessage_take_255]
  · simp only [truncMessage, List.length_take]
    omega
  · intro h t msg hmem
    unfold onMqttMessage at hmem
    cases hc : codec (truncMessage payload) with
    | none => rw [hc] at hmem; simp at hmem
    | some doc =>
      rw [hc] at hmem
      exact dispatchTopics_messageInvoke_mem _ _ _ _ _ _ _ _ hmem
  · intro hlen hz
    have hAll : payload.takeWhile (fun b => b != 0) = payload :=
      takeWhile_eq_self_of_all _ _ (fun b hb => by simpa [bne_iff_ne] using hz b hb)
    refine ⟨by simp [truncMessage, hAll], ?_⟩
    intro hEq
    have hL := congrArg List.length hEq
    simp only [truncMessage, hAll, List.length_take] at hL
    omega

/-- C9, witness: a NUL-free payload of 256 bytes is cut to its first 255
bytes, differs from the raw payload, and is what a message handler
receives. -/
theorem onMqttMessage_truncation_spec_witness :
    truncMessage (List.replicate 256 97) = (List.replicate 256 (97 : UInt8)).take 255
    ∧ truncMessage (List.replicate 256 97) ≠ List.replicate 256 (97 : UInt8)
    ∧ List.replicate 255 (97 : UInt8) = truncMessage (List.replicate 256 97) := by
  have h4 := (onMqttMessage_truncation_spec (mqttInit "d" "ESP32" "h") (fun _ => none) "x"
      (List.replicate 256 97)).2.2.2 (by decide) (by decide)
  have h3 := (onMqttMessage_truncation_spec
      (registerTopic (mqttInit "d" "ESP32" "h") "t" none (some 5))
      (fun _ => some { fields := [] }) "h/d/t" (List.replicate 256 97)).2.2.1
      5 "h/d/t" (List.replicate 255 97) (by decide)
  exact ⟨h4.1, h4.2, h3⟩

/-! ## C6: disconnect is idempotent -/

/-- C6: when the transport reports a live session, `disconnect()` publishes
the offline-status message exactly once, instructs the transport to
disconnect, and clears the connected flag; when the transport is already
disconnected it does nothing.  A second consecutive call always performs no
transport call, so two calls publish offline at most once. -/
theorem disconnect_idempotent (m : MQTTManager) (cl : PubSubClientState) :
    ((disconnect m cl).2.2
      = if cl.connected then
          [MqttAction.publishRaw (offlineTopic m) offlinePayload, MqttAction.clientDisconnect]
        else [])
    ∧ (disconnect m cl).2.1.connected = false
    ∧ ((disconnect m cl).1.deviceStatus.isConnected
        = if cl.connected then false else m.deviceStatus.isConnected)
    ∧ disconnect (disconnect m cl).1 (disconnect m cl).2.1
        = ((disconnect m cl).1, (disconnect m cl).2.1, [])
    ∧ ((disconnect m cl).2.2
          ++ (disconnect (disconnect m cl).1 (disconnect m cl).2.1).2.2).count
        (MqttAction.publishRaw (offlineTopic m) offlinePayload)
        = if cl.connected then 1 else 0 := by
  obtain ⟨c⟩ := cl
  cases c <;>
    simp [disconnect, List.count_cons, List.count_nil, List.count_append]

/-! ## C7: readConfig -/

theorem loadParams_fst (l : List ConfigParam) (doc vs : StrMap) :
    (loadParams l doc vs).1 = l.map (fun p =>
      match mapFind doc p.key with
      | some v => { p with value := v }
      | none => p) := by
  induction l generalizing vs with
  | nil => rfl
  | cons p ps ih =>
    cases hd : mapFind doc p.key <;> simp [loadParams, hd, ih]

theorem loadParams_snd_not_mem (l : List ConfigParam) (doc vs : StrMap) (key : String)
    (h : ∀ p ∈ l, p.key ≠ key) :
    mapFind (loadParams l doc vs).2 key = mapFind vs key := by
  induction l generalizing vs with
  | nil => rfl
  | cons p ps ih =>
    have hp : p.key ≠ key := h p (by simp)
    have hps : ∀ q ∈ ps, q.key ≠ key := fun q hq => h q (by simp [hq])
    cases hd : mapFind doc p.key with
    | some v =>
      simp only [loadParams, hd]
      rw [ih _ hps, mapFind_mapInsert_ne _ _ _ _ hp]
    | none =>
      simp only [loadParams, hd]
      exact ih _ hps

theorem loadParams_snd_mem (l : List ConfigParam) (doc : StrMap) :
    ∀ vs : StrMap, (l.map (fun p => p.key)).Nodup → ∀ p ∈ l,
      mapFind (loadParams l doc vs).2 p.key =
        match mapFind doc p.key with
        | some v => some v
        | none => mapFind vs p.key := by
  induction l with
  | nil => intro vs _ p hp; cases hp
  | cons q ps ih =>
    intro vs hnd p hp
    have h1 : q.key ∉ ps.map (fun p => p.key) := by
      simp only [List.map_cons, List.nodup_cons] at hnd
      exact hnd.1
    have hnd' : (ps.map (fun p => p.key)).Nodup := by
      simp only [List.map_cons, List.nodup_cons] at hnd
      exact hnd.2
    rcases List.mem_cons.mp hp with rfl | hmem
    · have hq : ∀ r ∈ ps, r.key ≠ p.key := fun r hr hEq =>
        h1 (hEq ▸ List.mem_map_of_mem _ hr)
      cases hd : mapFind doc p.key with
      | some v =>
        simp only [loadParams, hd]
        rw [loadParams_snd_not_mem _ _ _ _ hq, mapFind_mapInsert_self]
      | none =>
        simp only [loadParams, hd]
        exact loadParams_snd_not_mem _ _ _ _ hq
    · have hqk : q.key ≠ p.key := fun hEq => h1 (hEq ▸ List.mem_map_of_mem _ hmem)
      cases hd : mapFind doc q.key with
      | some v =>
        simp only [loadParams, hd]
        rw [ih (mapInsert vs q.key v) hnd' p hmem]
        cases hdp : mapFind doc p.key <;>
          simp [hdp, mapFind_mapInsert_ne _ _ _ _ hqk]
      | none =>
        simp only [loadParams, hd]
        exact ih vs hnd' p hmem

/-- C7: `readConfig` returns `(state unchanged, false)` when the store is
missing, unopenable or unparsable; on a parsed document it returns `true`,
overwrites `currentValue` of every registered parameter whose key the
document contains (in the ordered sequence and — for a registry with
distinct keys, as registration guarantees — in the derived mapping), and
leaves every registered key absent from the document at its previous
value. -/
theorem readConfig_spec (s : ConfigState) (store : StoreRead) :
    match store with
    | .missing => readConfig s store = (s, false)
    | .openFail => readConfig s store = (s, false)
    | .parseFail => readConfig s store = (s, false)
    | .ok doc =>
        (readConfig s store).2 = true
        ∧ (readConfig s store).1.configParams = s.configParams.map (fun p =>
            match mapFind doc p.key with
            | some v => { p with value := v }
            | none => p)
        ∧ ((s.configParams.map (fun p => p.key)).Nodup →
            ∀ p ∈ s.configParams,
              mapFind (readConfig s store).1.configValues p.key =
                match mapFind doc p.key with
                | some v => some v
                | none => mapFind s.configValues p.key) := by
  cases store with
  | missing => rfl
  | openFail => rfl
  | parseFail => rfl
  | ok doc =>
    refine ⟨rfl, ?_, ?_⟩
    · exact loadParams_fst s.configParams doc s.configValues
    · intro hnd p hp
      exact loadParams_snd_mem s.configParams doc s.configValues hnd p hp

/-- C7, witness: on a two-parameter registry and a document holding only key
`"a"`, load succeeds, `"a"` takes the stored value, `"b"` keeps its default,
and a missing store leaves the registry untouched. -/
theorem readConfig_spec_witness :
    (readConfig (registerParam (registerParam emptyConfig "a" "la" "da" 8) "b" "lb" "db" 8)
        (StoreRead.ok [("a", "va")])).2 = true
    ∧ mapFind (readConfig
        (registerParam (registerParam emptyConfig "a" "la" "da" 8) "b" "lb" "db" 8)
        (StoreRead.ok [("a", "va")])).1.configValues "a" = some "va"
    ∧ mapFind (readConfig
        (registerParam (registerParam emptyConfig "a" "la" "da" 8) "b" "lb" "db" 8)
        (StoreRead.ok [("a", "va")])).1.configValues "b" = some "db"
    ∧ readConfig (registerParam (registerParam emptyConfig "a" "la" "da" 8) "b" "lb" "db" 8)
        StoreRead.missing
      = (registerParam (registerParam emptyConfig "a" "la" "da" 8) "b" "lb" "db" 8, false) := by
  have h := readConfig_spec
    (registerParam (registerParam emptyConfig "a" "la" "da" 8) "b" "lb" "db" 8)
    (StoreRead.ok [("a", "va")])
  have hm := readConfig_spec
    (registerParam (registerParam emptyConfig "a" "la" "da" 8) "b" "lb" "db" 8)
    StoreRead.missing
  refine ⟨h.1, ?_, ?_, hm⟩
  · have ha := h.2.2 (by decide)
      { key := "a", label := "la", defaultValue := "da", maxLength := 8, value := "da" }
      (by decide)
    exact ha.trans (by decide)
  · have hb := h.2.2 (by decide)
      { key := "b", label := "lb", defaultValue := "db", maxLength := 8, value := "db" }
      (by decide)
    exact hb.trans (by decide)

/-! ## C4: connect -/

theorem string_append_left_cancel {a b c : String} (h : a ++ b = a ++ c) : b = c := by
  have hd : a.data ++ b.data = a.data ++ c.data := by
    simpa [String.data_append] using congrArg String.data h
  exact String.ext (List.append_cancel_left hd)

theorem buildTopic_inj (m : MQTTManager) {a b : String}
    (h : buildTopic m a = buildTopic m b) : a = b :=
  string_append_left_cancel
    (a := m.baseTopicPrefix ++ "/" ++ m.deviceStatus.deviceId ++ "/") h

/-- C4, counterexample.  The claim says a successful `connect()` subscribes
every currently registered topic's fully-qualified name exactly once;
because `registerTopic` accepts duplicate names, a registry holding two
bindings named `"cmd"` gets `"home/dev1/cmd"` subscribed twice in one
successful `connect()`. -/
theorem connect_duplicate_subscribe_cex :
    ((connect (registerTopic (registerTopic (mqttInit "dev1" "ESP32" "home") "cmd" none none)
        "cmd" none none)
        { cfg := emptyConfig, connectResult := true, now := 0, localIP := "ip",
          ser := fun _ => "J" }).2.2.1.count
      (MqttAction.subscribe "home/dev1/cmd")) = 2
    ∧ ¬ ((connect (registerTopic (registerTopic (mqttInit "dev1" "ESP32" "home") "cmd" none none)
        "cmd" none none)
        { cfg := emptyConfig, connectResult := true, now := 0, localIP := "ip",
          ser := fun _ => "J" }).2.2.1.count
      (MqttAction.subscribe "home/dev1/cmd")) = 1 := by
  refine ⟨rfl, by decide⟩

/-- C4, amended: on transport success `connect()` marks the device
connected, records `lastUpdateTime`, issues — after the connect attempt and
before the online-status publish — one subscribe per registered binding on
its fully-qualified name in registration order (hence each registered
topic name exactly once whenever binding names are distinct, twice per
duplicate otherwise), then publishes the online-status event and returns
true; on transport failure it marks the device disconnected, returns
false, and performs no subscribe or publish. -/
theorem connect_spec (m : MQTTManager) (env : ConnectEnv) :
    (env.connectResult = true →
      (connect m env).2.2.2 = true
      ∧ (connect m env).1.deviceStatus.isConnected = true
      ∧ (connect m env).1.deviceStatus.lastUpdateTime = env.now
      ∧ (connect m env).1.topics = m.topics
      ∧ (connect m env).2.1.connected = true
      ∧ (connect m env).2.2.1 =
          MqttAction.connectAttempt m.deviceId (connectAuth env)
            :: (m.topics.map (fun t => MqttAction.subscribe (buildTopic m t.name))
                ++ [MqttAction.publishRaw
                      (buildTopic m (m.baseTopicPrefix ++ "/" ++ m.deviceStatus.deviceId ++ "/online"))
                      (env.ser (OutDoc.onlineDoc m.deviceStatus.deviceId env.now env.localIP))])
      ∧ ((m.topics.map (fun t => t.name)).Nodup →
          ∀ t ∈ m.topics,
            (connect m env).2.2.1.count (MqttAction.subscribe (buildTopic m t.name)) = 1))
    ∧ (env.connectResult = false →
      (connect m env).2.2.2 = false
      ∧ (connect m env).1
          = { m with deviceStatus := { m.deviceStatus with isConnected := false } }
      ∧ (connect m env).2.1.connected = false
      ∧ (connect m env).2.2.1 = [MqttAction.connectAttempt m.deviceId (connectAuth env)]) := by
  constructor
  · intro hres
    have hacts : (connect m env).2.2.1 =
        MqttAction.connectAttempt m.deviceId (connectAuth env)
          :: (m.topics.map (fun t => MqttAction.subscribe (buildTopic m t.name))
              ++ [MqttAction.publishRaw
                    (buildTopic m (m.baseTopicPrefix ++ "/" ++ m.deviceStatus.deviceId ++ "/online"))
                    (env.ser (OutDoc.onlineDoc m.deviceStatus.deviceId env.now env.localIP))]) := by
      simp [connect, hres, subscribeToAllTopics, publishOnlineStatus, buildTopic]
    refine ⟨by simp [connect, hres], by simp [connect, hres], by simp [connect, hres],
      by simp [connect, hres], by simp [connect, hres], hacts, ?_⟩
    intro hnd t ht
    rw [hacts]
    have hsub : m.topics.map (fun t => MqttAction.subscribe (buildTopic m t.name))
        = (m.topics.map (fun t => t.name)).map
            (fun n => MqttAction.subscribe (buildTopic m n)) := by
      rw [List.map_map]
      rfl
    have hinj : Function.Injective (fun n => MqttAction.subscribe (buildTopic m n)) := by
      intro x y hxy
      simp only [MqttAction.subscribe.injEq] at hxy
      exact buildTopic_inj m hxy
    simp only [List.count_cons, List.count_append, hsub]
    rw [List.count_map_of_injective _ _ hinj]
    rw [List.count_eq_one_of_mem hnd (List.mem_map_of_mem _ ht)]
    simp
  · intro hres
    refine ⟨by simp [connect, hres], by simp [connect, hres], by simp [connect, hres],
      by simp [connect, hres]⟩

/-- C4, witness: a concrete successful connect subscribes the single
registered topic exactly once, and a failed connect reports false. -/
theorem connect_spec_witness :
    (connect (registerTopic (mqttInit "dev1" "ESP32" "home") "cmd" (some 1) none)
      { cfg := emptyConfig, connectResult := true, now := 7, localIP := "ip",
        ser := fun _ => "J" }).2.2.2 = true
    ∧ (connect (registerTopic (mqttInit "dev1" "ESP32" "home") "cmd" (some 1) none)
        { cfg := emptyConfig, connectResult := true, now := 7, localIP := "ip",
          ser := fun _ => "J" }).2.2.1.count
        (MqttAction.subscribe (buildTopic
          (registerTopic (mqttInit "dev1" "ESP32" "home") "cmd" (some 1) none) "cmd")) = 1
    ∧ (connect (registerTopic (mqttInit "dev1" "ESP32" "home") "cmd" (some 1) none)
        { cfg := emptyConfig, connectResult := false, now := 7, localIP := "ip",
          ser := fun _ => "J" }).2.2.2 = false := by
  have hT := (connect_spec (registerTopic (mqttInit "dev1" "ESP32" "home") "cmd" (some 1) none)
      { cfg := emptyConfig, connectResult := true, now := 7, localIP := "ip",
        ser := fun _ => "J" }).1 rfl
  have hF := (connect_spec (registerTopic (mqttInit "dev1" "ESP32" "home") "cmd" (some 1) none)
      { cfg := emptyConfig, connectResult := false, now := 7, localIP := "ip",
        ser := fun _ => "J" }).2 rfl
  exact ⟨hT.1,
    hT.2.2.2.2.2.2 (by decide) { name := "cmd", onCommand := some 1, onMessage := none }
      (by decide),
    hF.1⟩

end ArduinoDemo
